import Mathlib

/-!
Verification of the data-store lifecycle and schema-reconciliation core of
the arabic-booteh backend (app/database.py, app/services.py, app/main.py).

The Python source is shallowly embedded: the relational store is explicit
state (lists of tables, columns and rows), SQL statements become pure state
transformers transcribed from the DDL/DML text, fallible paths return
Except, and the asyncio interleaving of get_pool is a small-step machine
driven by an explicit schedule. Definitions are transcribed from the
source; the seed catalog PERSONALITY_TEST_SEED lives in a file that is not
part of the shown sources, so seed data is a parameter throughout, while
the reconciliation algorithm itself is the one of _initialize_schema.
-/

/-! ## Seed reconciliation (database.py lines 219-336)

The personality_assessments reference table.  A row carries the immutable
identity (id, name, slug) and the mutable catalog fields that the UPDATE
branch of the reconciler rewrites. -/

/-- Mutable catalog fields of a personality_assessments row: exactly the
columns set by the UPDATE statement at database.py lines 304-336 (and also
provided by the bulk INSERT at lines 292-300). -/
structure MutableFields where
  tagline : String
  description : String
  report_name : String
  highlights : String
  persona_name : String
  initial_prompt : Option String
  persona_prompt : Option String
  analysis_prompt : Option String
  has_timer : Bool
  timer_duration : Option Int
  model : Option String
  is_active : Bool
deriving DecidableEq

/-- One entry of the PERSONALITY_TEST_SEED catalog: natural key (slug),
display name, and the mutable fields. -/
structure SeedEntry where
  name : String
  slug : String
  fields : MutableFields
deriving DecidableEq

/-- One stored row of personality_assessments: auto-increment id, the
columns fixed at insert time (name, slug) and the mutable fields. -/
structure PARow where
  id : Nat
  name : String
  slug : String
  fields : MutableFields
deriving DecidableEq

/-- The personality_assessments table: stored rows plus the auto-increment
counter that yields the id of the next inserted row. -/
structure PATable where
  rows : List PARow
  nextId : Nat
deriving DecidableEq

/-- Effect of the UPDATE statement (database.py lines 304-336) on a single
row: when the slug matches, every mutable column is overwritten with the
seed values; id, name and slug are untouched. -/
def rowUpd (s : SeedEntry) (r : PARow) : PARow :=
  if r.slug = s.slug then { r with fields := s.fields } else r

/-- Insertion of one seed entry as a fresh row (part of the bulk INSERT at
database.py lines 292-300): the row receives the auto-increment id. -/
def insertSeedRow (t : PATable) (s : SeedEntry) : PATable :=
  { rows := t.rows ++ [{ id := t.nextId, name := s.name, slug := s.slug, fields := s.fields }],
    nextId := t.nextId + 1 }

/-- The bulk INSERT of the whole seed set (database.py lines 269-301),
taken row by row in seed order. -/
def bulkInsertSeed (t : PATable) (seed : List SeedEntry) : PATable :=
  seed.foldl insertSeedRow t

/-- The UPDATE ... WHERE slug = %s statement for one seed entry
(database.py lines 304-336): every row whose slug matches is rewritten. -/
def updateBySlug (t : PATable) (s : SeedEntry) : PATable :=
  { rows := t.rows.map (rowUpd s), nextId := t.nextId }

/-- Seed reconciliation (database.py lines 266-336): count the rows; if
zero, bulk-insert the full seed set, otherwise run one UPDATE per seed
entry keyed by slug.  No branch ever deletes a row. -/
def reconcileSeed (t : PATable) (seed : List SeedEntry) : PATable :=
  if t.rows.length = 0 then bulkInsertSeed t seed
  else seed.foldl updateBySlug t

/-- Per-row view of the whole UPDATE pass: the updates of all seed entries
applied to one row, in seed order. -/
def rowApply (seed : List SeedEntry) (r : PARow) : PARow :=
  seed.foldl (fun r s => rowUpd s r) r

/-! ## Schema steps (database.py lines 142-545)

The statements issued by _initialize_schema, in source order.  A
createTable step records the column list of its CREATE TABLE text and the
tables referenced by its FOREIGN KEY clauses; an addColumns step records an
ALTER TABLE ... ADD COLUMN IF NOT EXISTS statement; seedReconcile is the
count-then-insert-or-update block on personality_assessments. -/

/-- One statement of the schema-initialization routine. -/
inductive SchemaStep where
  | createTable (name : String) (cols : List String) (fks : List String)
  | addColumns (table : String) (cols : List String)
  | seedReconcile
deriving DecidableEq

/-- The complete statement sequence of _initialize_schema, in the order the
source issues it (database.py lines 142-545). -/
def schemaSteps : List SchemaStep := [
  .createTable ("users")
    ["id", "username", "email", "password_hash", "first_name", "last_name",
     "phone_number", "age", "education_level", "work_experience", "is_active",
     "created_at", "updated_at"] [],
  .createTable ("admins")
    ["id", "username", "password_hash", "created_at"] [],
  .createTable ("questionnaires")
    ["id", "name", "description", "initial_prompt", "persona_prompt",
     "analysis_prompt", "has_narrator", "character_count", "has_timer",
     "timer_duration", "min_questions", "max_questions", "display_order",
     "category", "next_mystery_slug", "created_at", "updated_at"] [],
  .addColumns ("questionnaires") ["next_mystery_slug"],
  .addColumns ("questionnaires")
    ["total_phases", "phase_two_persona_name", "phase_two_persona_prompt",
     "phase_two_analysis_prompt", "phase_two_welcome_message"],
  .createTable ("personality_assessments")
    ["id", "name", "slug", "tagline", "description", "report_name",
     "highlights", "persona_name", "initial_prompt", "persona_prompt",
     "analysis_prompt", "has_timer", "timer_duration", "model", "is_active",
     "created_at", "updated_at"] [],
  .addColumns ("personality_assessments") ["persona_name"],
  .addColumns ("personality_assessments") ["initial_prompt"],
  .addColumns ("personality_assessments") ["persona_prompt"],
  .addColumns ("personality_assessments") ["analysis_prompt"],
  .addColumns ("personality_assessments") ["has_timer"],
  .addColumns ("personality_assessments") ["timer_duration"],
  .addColumns ("personality_assessments") ["model"],
  .seedReconcile,
  .createTable ("personality_sessions")
    ["id", "user_id", "personality_assessment_id", "session_uuid", "status",
     "results", "created_at", "updated_at"]
    ["users", "personality_assessments"],
  .createTable ("personality_assessment_applications")
    ["id", "personality_assessment_id", "slug", "full_name", "email",
     "phone", "organization", "notes", "created_at"]
    ["personality_assessments"],
  .createTable ("assessments")
    ["id", "user_id", "questionnaire_id", "session_id", "status", "results",
     "current_phase", "phase_total", "score", "max_score", "description",
     "supplementary_answers", "created_at", "updated_at", "completed_at"]
    ["users", "questionnaires"],
  .addColumns ("assessments") ["current_phase", "phase_total"],
  .createTable ("chat_messages")
    ["id", "assessment_id", "user_id", "message_type", "content",
     "character_name", "created_at"]
    ["assessments", "users"],
  .createTable ("organizations")
    ["id", "name", "slug", "created_at", "updated_at"] [],
  .createTable ("organization_questionnaires")
    ["organization_id", "questionnaire_id"]
    ["organizations", "questionnaires"],
  .createTable ("organization_users")
    ["organization_id", "user_id"]
    ["organizations", "users"],
  .createTable ("blog_posts")
    ["id", "title", "slug", "excerpt", "content", "cover_image_url",
     "author", "is_published", "published_at", "created_at", "updated_at"] [],
  .createTable ("mystery_assessments")
    ["id", "name", "slug", "short_description", "intro_message",
     "guide_name", "system_prompt", "analysis_prompt", "bubble_prompt",
     "is_active", "created_at", "updated_at"] [],
  .createTable ("mystery_assessment_images")
    ["id", "mystery_assessment_id", "image_url", "title", "description",
     "ai_notes", "display_order", "created_at", "updated_at"]
    ["mystery_assessments"],
  .createTable ("mystery_sessions")
    ["id", "user_id", "mystery_assessment_id", "session_uuid", "status",
     "conversation", "summary", "created_at", "updated_at"]
    ["users", "mystery_assessments"],
  .addColumns ("mystery_assessments") ["bubble_prompt"]
]

/-- The live table catalog: each created table with its current column
list, in creation order. -/
abbrev TablesState := List (String × List String)

/-- CREATE TABLE IF NOT EXISTS: a no-op when a table of that name already
exists, otherwise the table is appended with the columns of its DDL. -/
def createTableIfNotExists (T : TablesState) (name : String) (cols : List String) : TablesState :=
  if name ∈ T.map Prod.fst then T else T ++ [(name, cols)]

/-- Effect of ADD COLUMN IF NOT EXISTS on one catalog entry: a table of the
target name gains the column unless already present; other tables are
untouched. -/
def colUpd (table col : String) (e : String × List String) : String × List String :=
  if e.1 = table then (e.1, if col ∈ e.2 then e.2 else e.2 ++ [col]) else e

/-- ALTER TABLE ... ADD COLUMN IF NOT EXISTS for a single column. -/
def addColumnIfNotExists (T : TablesState) (table col : String) : TablesState :=
  T.map (colUpd table col)

/-- Effect of one schema step on the table catalog; the seed block touches
only row data, not the catalog. -/
def tableApply (T : TablesState) : SchemaStep → TablesState
  | .createTable name cols _ => createTableIfNotExists T name cols
  | .addColumns table cols => cols.foldl (fun T c => addColumnIfNotExists T table c) T
  | .seedReconcile => T

/-- The table catalog after a sequence of schema steps. -/
def runTables (T : TablesState) (ops : List SchemaStep) : TablesState :=
  ops.foldl tableApply T

/-- The whole relational store as the reconciler sees it: the table catalog
plus the row data of the one reference table it reconciles. -/
structure DbStore where
  tables : TablesState
  pa : PATable
deriving DecidableEq

/-- Effect of one schema step on the whole store. -/
def applyStep (seed : List SeedEntry) (st : DbStore) : SchemaStep → DbStore
  | .createTable name cols fks =>
      { st with tables := tableApply st.tables (.createTable name cols fks) }
  | .addColumns table cols =>
      { st with tables := tableApply st.tables (.addColumns table cols) }
  | .seedReconcile => { st with pa := reconcileSeed st.pa seed }

/-- Row-data projection of one schema step. -/
def paApply (seed : List SeedEntry) (p : PATable) : SchemaStep → PATable
  | .createTable _ _ _ => p
  | .addColumns _ _ => p
  | .seedReconcile => reconcileSeed p seed

/-- The _initialize_schema routine (database.py lines 142-545): all steps
in source order against the store. -/
def init_schema (seed : List SeedEntry) (st : DbStore) : DbStore :=
  schemaSteps.foldl (applyStep seed) st

/-- Fallible run of the schema steps inside the transaction of
create_tables: the oracle failAt marks the statements the store rejects
(index into the step sequence); a raising statement has no effect and
aborts the run. -/
def runStepsE (failAt : Nat → Bool) (seed : List SeedEntry) :
    Nat → List SchemaStep → DbStore → Except String DbStore
  | _, [], st => .ok st
  | i, op :: rest, st =>
      if failAt i then .error ("schema step failed")
      else runStepsE failAt seed (i + 1) rest (applyStep seed st op)

/-- create_tables (database.py lines 128-141): one transaction around
_initialize_schema; on success the working state commits and the call
returns true, on any raising step the transaction rolls back — the
persisted store is the one before the call — the cause is logged and the
call returns false instead of raising. -/
def create_tables (failAt : Nat → Bool) (seed : List SeedEntry) (st : DbStore) :
    DbStore × Bool :=
  match runStepsE failAt seed 0 schemaSteps st with
  | .ok st2 => (st2, true)
  | .error _ => (st, false)

/-- Foreign-key targets declared by a step: the REFERENCES clauses of a
CREATE TABLE, none for the other statements. -/
def fksOf : SchemaStep → List String
  | .createTable _ _ fks => fks
  | .addColumns _ _ => []
  | .seedReconcile => []

/-- Whether a step creates the table of the given name. -/
def isCreateOf (op : SchemaStep) (name : String) : Bool :=
  match op with
  | .createTable n _ _ => n == name
  | .addColumns _ _ => false
  | .seedReconcile => false

/-- Membership of a table name in the catalog. -/
def hasTable (T : TablesState) (n : String) : Prop :=
  n ∈ T.map Prod.fst

/-- Presence of a column on every catalog entry of the given table name. -/
def hasCol (T : TablesState) (t c : String) : Prop :=
  ∀ e ∈ T, e.1 = t → c ∈ e.2

/-! ## Self-assessment submission (services.py lines 28-64, main.py 50-63) -/

/-- Service-level error: message plus the HTTP status code the endpoint
returns for it. -/
structure ServiceError where
  message : String
  status_code : Nat
deriving DecidableEq

/-- Success payload of submit_answers: the message and the identity of the
newly inserted assessment row. -/
structure SubmitOk where
  message : String
  assessmentId : Int
deriving DecidableEq

/-- One row of soft_skills_self_assessment: id, owner, and the answer
columns set by the dynamic UPDATE. -/
structure SSRow where
  id : Int
  user_id : Int
  cols : List (String × Int)
deriving DecidableEq

/-- The soft_skills_self_assessment table with its auto-increment counter. -/
structure SSTable where
  rows : List SSRow
  nextId : Int
deriving DecidableEq

/-- Validation predicate of services.py lines 32-34: the submission is
rejected unless it has exactly 22 entries, every value an integer between 1
and 5 (values are integers by construction of the typed payload). -/
def answers_invalid (answers : List (String × Int)) : Bool :=
  !(answers.length == 22) || answers.any (fun kv => kv.2 < 1 || 5 < kv.2)

/-- Dynamic SET clause of services.py line 47: one key = %s fragment per
answers key, joined by commas — the keys are spliced into the SQL text. -/
def setClause (answers : List (String × Int)) : String :=
  String.intercalate (", ") (answers.map (fun kv => kv.1 ++ " = %s"))

/-- The fixed INSERT statement of services.py lines 41-44. -/
def insertSelfSql : String :=
  "INSERT INTO soft_skills_self_assessment (user_id) VALUES (%s)"

/-- The dynamic UPDATE statement of services.py lines 50-53. -/
def updateStatement (answers : List (String × Int)) : String :=
  "UPDATE soft_skills_self_assessment SET " ++ setClause answers ++ " WHERE id = %s"

/-- Bound parameter list of the dynamic UPDATE (services.py line 52): the
answers values followed by the row id. -/
def updateParams (answers : List (String × Int)) (assessment_id : Int) : List Int :=
  answers.map Prod.snd ++ [assessment_id]

deriving instance DecidableEq for Except

/-- Result of one submit_answers call: the table afterwards, the outcome,
and the (statement text, bound parameters) pairs handed to the store. -/
structure SubmitOutcome where
  db : SSTable
  result : Except ServiceError SubmitOk
  issued : List (String × List Int)
deriving DecidableEq

/-- submit_answers (services.py lines 28-64): reject a falsy user id with
401 before anything else, then validate the answers (400), and only then
open a transaction that inserts the row and applies the dynamic UPDATE. -/
def submit_answers (user_id : Int) (answers : List (String × Int)) (db : SSTable) :
    SubmitOutcome :=
  if user_id = 0 then
    { db := db, result := .error ⟨"دسترسی غیرمجاز", 401⟩, issued := [] }
  else if answers_invalid answers then
    { db := db, result := .error ⟨"داده‌های ارسالی نامعتبر است", 400⟩, issued := [] }
  else
    let assessment_id := db.nextId
    let db1 : SSTable :=
      { rows := db.rows ++ [{ id := assessment_id, user_id := user_id, cols := [] }],
        nextId := db.nextId + 1 }
    let db2 : SSTable :=
      { db1 with rows := db1.rows.map (fun r =>
          if r.id = assessment_id then { r with cols := answers } else r) }
    { db := db2,
      result := .ok ⟨"پاسخ‌های شما با موفقیت ثبت شد.", assessment_id⟩,
      issued := [(insertSelfSql, [user_id]),
                 (updateStatement answers, updateParams answers assessment_id)] }

/-- Endpoint glue of main.py lines 50-57: a missing session user is passed
to the service as user id 0 (the expression user_id or 0). -/
def submit_endpoint (sessionUserId : Option Int) (answers : List (String × Int))
    (db : SSTable) : SubmitOutcome :=
  submit_answers (if sessionUserId.getD 0 = 0 then 0 else sessionUserId.getD 0) answers db

/-- Query helpers fetch_all / fetch_one / execute / executemany
(database.py lines 78-115): the statement handed to cursor.execute is the
caller query unchanged; params or () is passed alongside as the bound
parameter sequence. -/
def helperIssued (query : String) (params : Option (List Int)) : String × List Int :=
  (query, params.getD [])

/-! ## Lazy pool creation under interleaving (database.py lines 51-60)

A small-step machine for two tasks running get_pool concurrently.  The
await inside the branch is the interleaving point: checking self._pool,
awaiting aiomysql.create_pool plus the assignment, and the final read of
self._pool are separate atomic steps, exactly the suspension structure of
the Python coroutine. -/

/-- Program counter of one get_pool invocation. -/
inductive GetPoolPC where
  | check
  | create
  | ret
  | done
deriving DecidableEq

/-- One task running get_pool: its program counter and, once finished, the
pool object it returned. -/
structure GetPoolTask where
  pc : GetPoolPC
  retVal : Option Nat
deriving DecidableEq

/-- The shared manager state: self._pool, plus a counter of how many
physical pools aiomysql.create_pool has produced (also used as the identity
of the next pool). -/
structure GetPoolGlobal where
  pool : Option Nat
  created : Nat
deriving DecidableEq

/-- One atomic step of one task. -/
def stepGetPool (g : GetPoolGlobal) (t : GetPoolTask) : GetPoolGlobal × GetPoolTask :=
  match t.pc with
  | .check =>
      if g.pool = none then (g, { t with pc := .create })
      else (g, { t with pc := .ret })
  | .create =>
      let pid := g.created + 1
      ({ pool := some pid, created := pid }, { t with pc := .ret })
  | .ret => (g, { pc := .done, retVal := g.pool })
  | .done => (g, t)

/-- Two tasks plus the shared state. -/
structure GetPoolSys where
  glob : GetPoolGlobal
  t1 : GetPoolTask
  t2 : GetPoolTask
deriving DecidableEq

/-- One scheduler step: true steps task 1, false steps task 2. -/
def schedStep (s : GetPoolSys) (pickFirst : Bool) : GetPoolSys :=
  if pickFirst then
    let r := stepGetPool s.glob s.t1
    { s with glob := r.1, t1 := r.2 }
  else
    let r := stepGetPool s.glob s.t2
    { s with glob := r.1, t2 := r.2 }

/-- Run of a whole schedule. -/
def runSched (s : GetPoolSys) (sched : List Bool) : GetPoolSys :=
  sched.foldl schedStep s

/-- The initial system: no pool yet, no pool ever created, both tasks about
to execute their first call of get_pool. -/
def getPoolInit : GetPoolSys :=
  { glob := { pool := none, created := 0 },
    t1 := { pc := .check, retVal := none },
    t2 := { pc := .check, retVal := none } }

/-! ## Scoped connection acquisition (database.py lines 62-70) -/

/-- Pool events visible from one pass through the connection context
manager. -/
inductive ConnEvent where
  | acquire
  | release
deriving DecidableEq

/-- Outcome of the scope: the body value propagates, a raising ping or body
re-raises after the finally clause ran. -/
inductive ScopeResult where
  | ok
  | raised
deriving DecidableEq

/-- The connection context manager (database.py lines 62-70): acquire, then
inside try run the liveness ping and the body; the finally clause releases
the connection on every exit path, so every run emits exactly one acquire
followed by exactly one release, whatever the outcome. -/
def connectionScope (pingOk bodyOk : Bool) : List ConnEvent × ScopeResult :=
  ([ConnEvent.acquire] ++ [ConnEvent.release],
   if pingOk then (if bodyOk then .ok else .raised) else .raised)

/-- Whether an event is an acquire. -/
def isAcquire : ConnEvent → Bool
  | .acquire => true
  | .release => false

/-- Number of acquires in an event trace. -/
def countAcquires (evs : List ConnEvent) : Nat :=
  (evs.filter isAcquire).length

/-- Number of releases in an event trace. -/
def countReleases (evs : List ConnEvent) : Nat :=
  (evs.filter (fun e => !isAcquire e)).length

/-- Effect of an event trace on the available-connection count of the
pool. -/
def applyConnEvents (p : Int) (evs : List ConnEvent) : Int :=
  evs.foldl (fun q e => match e with
    | ConnEvent.acquire => q - 1
    | ConnEvent.release => q + 1) p

/-! ## Blog listing limit (services.py lines 71-93) -/

/-- Whitespace stripping on both ends, as int() does before parsing. -/
def stripChars (cs : List Char) : List Char :=
  ((cs.dropWhile Char.isWhitespace).reverse.dropWhile Char.isWhitespace).reverse

/-- Accumulating decimal parse: succeeds only when every remaining
character is an ASCII digit. -/
def digitsVal (cs : List Char) (acc : Nat) : Option Nat :=
  match cs with
  | [] => some acc
  | c :: rest => if c.isDigit then digitsVal rest (acc * 10 + (c.toNat - 48)) else none

/-- Nonempty all-digit parse. -/
def parseDigits (cs : List Char) : Option Nat :=
  match cs with
  | [] => none
  | _ => digitsVal cs 0

/-- Model of the Python int(str) conversion used at services.py line 76:
optional surrounding whitespace, optional sign, then decimal digits; any
other shape raises ValueError, modelled as none.  (Exotic literals — digit
group underscores, non-ASCII digits — are outside the model.) -/
def pyParseInt (s : String) : Option Int :=
  match stripChars s.toList with
  | '+' :: rest => (parseDigits rest).map Int.ofNat
  | '-' :: rest => (parseDigits rest).map (fun n => -(Int.ofNat n))
  | cs => (parseDigits cs).map Int.ofNat

/-- BlogService._sanitize_limit (services.py lines 71-81): None stays None,
an unparsable string becomes None, a non-positive parse becomes None, and a
positive parse is capped at 50.  The function is total: a malformed limit
never raises. -/
def sanitize_limit (limit : Option String) : Option Int :=
  match limit with
  | none => none
  | some s =>
      match pyParseInt s with
      | none => none
      | some parsed => if parsed ≤ 0 then none else some (min parsed 50)

/-- The fixed base query of list_posts (services.py lines 85-90). -/
def blogBaseQuery : String :=
  "SELECT id, title, slug, excerpt, cover_image_url, author, published_at, created_at " ++
  "FROM blog_posts WHERE is_published = 1 ORDER BY COALESCE(published_at, created_at) DESC"

/-- list_posts (services.py lines 83-93): statement and bound parameters
handed to fetch_all — the LIMIT clause is appended only for a truthy
sanitized limit, with the value bound as a parameter. -/
def list_posts_query (limit : Option String) : String × List Int :=
  match sanitize_limit limit with
  | some n => if n = 0 then (blogBaseQuery, []) else (blogBaseQuery ++ " LIMIT %s", [n])
  | none => (blogBaseQuery, [])

/-! ## Concrete instances used by counterexamples and witnesses -/

/-- A sample mutable-field record, distinguished by its tagline. -/
def mkFields (tag : String) : MutableFields :=
  { tagline := tag, description := "d", report_name := "r", highlights := "h",
    persona_name := "p", initial_prompt := none, persona_prompt := none,
    analysis_prompt := none, has_timer := false, timer_duration := none,
    model := none, is_active := true }

/-- A table already holding rows keyed a and b. -/
def tabAB : PATable :=
  { rows := [{ id := 1, name := "A", slug := "a", fields := mkFields ("old-a") },
             { id := 2, name := "B", slug := "b", fields := mkFields ("old-b") }],
    nextId := 3 }

/-- A seed set keyed a, b and c: fresh fields for a and b, and a new entry
c absent from the table. -/
def seedABC : List SeedEntry :=
  [{ name := "A", slug := "a", fields := mkFields ("new-a") },
   { name := "B", slug := "b", fields := mkFields ("new-b") },
   { name := "C", slug := "c", fields := mkFields ("new-c") }]

/-- A store with no tables and no reference rows. -/
def emptyStore : DbStore :=
  { tables := [], pa := { rows := [], nextId := 1 } }

/-- A 22-entry valid answers dictionary with keys q1 .. q22. -/
def ansQ : List (String × Int) :=
  (List.range 22).map (fun i => ("q" ++ toString (i + 1), 3))

/-- The same answers under different caller-controlled keys p1 .. p22. -/
def ansP : List (String × Int) :=
  (List.range 22).map (fun i => ("p" ++ toString (i + 1), 3))

/-- An empty soft_skills_self_assessment table. -/
def emptySS : SSTable :=
  { rows := [], nextId := 1 }

/-! # Theorems -/

/-! ## Generic list lemmas -/

/-- A map whose function fixes every element of a list is the identity. -/
theorem mapIdOfMem {α : Type} (l : List α) (f : α → α) (h : ∀ x ∈ l, f x = x) :
    l.map f = l := by
  induction l with
  | nil => rfl
  | cons x xs ih =>
      simp only [List.map_cons]
      rw [h x (by simp), ih (fun y hy => h y (by simp [hy]))]

/-- Maps of functions that agree on the list agree. -/
theorem mapCongrOn {α β : Type} (l : List α) (f g : α → β) (h : ∀ x ∈ l, f x = g x) :
    l.map f = l.map g := by
  induction l with
  | nil => rfl
  | cons x xs ih =>
      simp only [List.map_cons]
      rw [h x (by simp), ih (fun y hy => h y (by simp [hy]))]

/-! ## Seed reconciliation lemmas -/

/-- A per-entry update never changes the row id. -/
theorem rowUpd_id (s : SeedEntry) (r : PARow) : (rowUpd s r).id = r.id := by
  unfold rowUpd; split <;> rfl

/-- A per-entry update never changes the row name. -/
theorem rowUpd_name (s : SeedEntry) (r : PARow) : (rowUpd s r).name = r.name := by
  unfold rowUpd; split <;> rfl

/-- A per-entry update never changes the row slug. -/
theorem rowUpd_slug (s : SeedEntry) (r : PARow) : (rowUpd s r).slug = r.slug := by
  unfold rowUpd; split <;> rfl

/-- Unfolding of the per-row update pass. -/
theorem rowApply_cons (s : SeedEntry) (seed : List SeedEntry) (r : PARow) :
    rowApply (s :: seed) r = rowApply seed (rowUpd s r) := rfl

/-- The update pass never changes the row id. -/
theorem rowApply_id : ∀ (seed : List SeedEntry) (r : PARow), (rowApply seed r).id = r.id := by
  intro seed
  induction seed with
  | nil => intro r; rfl
  | cons s ss ih => intro r; rw [rowApply_cons, ih, rowUpd_id]

/-- The update pass never changes the row name. -/
theorem rowApply_name : ∀ (seed : List SeedEntry) (r : PARow), (rowApply seed r).name = r.name := by
  intro seed
  induction seed with
  | nil => intro r; rfl
  | cons s ss ih => intro r; rw [rowApply_cons, ih, rowUpd_name]

/-- The update pass never changes the row slug. -/
theorem rowApply_slug : ∀ (seed : List SeedEntry) (r : PARow), (rowApply seed r).slug = r.slug := by
  intro seed
  induction seed with
  | nil => intro r; rfl
  | cons s ss ih => intro r; rw [rowApply_cons, ih, rowUpd_slug]

/-- The UPDATE branch of the reconciler is a per-row map: it changes no row
count, no ordering, no auto-increment state. -/
theorem updFold_eq : ∀ (seed : List SeedEntry) (t : PATable),
    seed.foldl updateBySlug t = { rows := t.rows.map (rowApply seed), nextId := t.nextId } := by
  intro seed
  induction seed with
  | nil =>
      intro t
      rw [List.foldl_nil, mapIdOfMem t.rows (rowApply []) (fun r _ => rfl)]
  | cons s ss ih =>
      intro t
      rw [List.foldl_cons, ih (updateBySlug t s)]
      show ({ rows := (t.rows.map (rowUpd s)).map (rowApply ss), nextId := t.nextId } : PATable) = _
      rw [List.map_map]
      rfl

/-- A row whose fields already agree with every matching seed entry is a
fixed point of the update pass. -/
theorem rowApply_fix : ∀ (seed : List SeedEntry) (r : PARow),
    (∀ s ∈ seed, s.slug = r.slug → s.fields = r.fields) → rowApply seed r = r := by
  intro seed
  induction seed with
  | nil => intro r _; rfl
  | cons s ss ih =>
      intro r h
      rw [rowApply_cons]
      by_cases hs : r.slug = s.slug
      · have hupd : rowUpd s r = r := by
          unfold rowUpd
          rw [if_pos hs, h s (List.mem_cons_self s ss) hs.symm]
        rw [hupd]
        exact ih r (fun s2 hs2 => h s2 (List.mem_cons_of_mem s hs2))
      · have hupd : rowUpd s r = r := by
          unfold rowUpd
          rw [if_neg hs]
        rw [hupd]
        exact ih r (fun s2 hs2 => h s2 (List.mem_cons_of_mem s hs2))

/-- When some seed entry matches the slug, the update pass overwrites the
fields completely: two rows agreeing on id, name and slug end up equal. -/
theorem rowApply_agree : ∀ (seed : List SeedEntry) (r1 r2 : PARow),
    r1.id = r2.id → r1.name = r2.name → r1.slug = r2.slug →
    (∃ s ∈ seed, s.slug = r1.slug) → rowApply seed r1 = rowApply seed r2 := by
  intro seed
  induction seed with
  | nil =>
      intro r1 r2 _ _ _ hm
      exact absurd hm (by simp)
  | cons s ss ih =>
      intro r1 r2 hid hname hslug hm
      rw [rowApply_cons, rowApply_cons]
      by_cases hs : r1.slug = s.slug
      · have e1 : rowUpd s r1 = { id := r1.id, name := r1.name, slug := r1.slug, fields := s.fields } := by
          unfold rowUpd; rw [if_pos hs]
        have e2 : rowUpd s r2 = { id := r1.id, name := r1.name, slug := r1.slug, fields := s.fields } := by
          unfold rowUpd
          rw [if_pos (hslug ▸ hs), ← hid, ← hname, ← hslug]
        rw [e1, e2]
      · have e1 : rowUpd s r1 = r1 := by unfold rowUpd; rw [if_neg hs]
        have e2 : rowUpd s r2 = r2 := by
          unfold rowUpd; rw [if_neg (hslug ▸ hs)]
        rw [e1, e2]
        rcases hm with ⟨s2, hs2, he2⟩
        rcases List.mem_cons.mp hs2 with rfl | hs3
        · exact absurd he2.symm hs
        · exact ih r1 r2 hid hname hslug ⟨s2, hs3, he2⟩

/-- The per-row update pass is idempotent. -/
theorem rowApply_idem (seed : List SeedEntry) (r : PARow) :
    rowApply seed (rowApply seed r) = rowApply seed r := by
  by_cases hm : ∃ s ∈ seed, s.slug = r.slug
  · exact rowApply_agree seed (rowApply seed r) r (rowApply_id seed r) (rowApply_name seed r)
      (rowApply_slug seed r) (by rw [rowApply_slug]; exact hm)
  · have hfix : rowApply seed r = r :=
      rowApply_fix seed r (fun s hs he => (hm ⟨s, hs, he⟩).elim)
    rw [hfix, hfix]

/-- Origin of the rows produced by the bulk INSERT: either an old row, or a
row copying slug and fields of some seed entry. -/
theorem bulk_rows_mem : ∀ (seed : List SeedEntry) (t : PATable) (r : PARow),
    r ∈ (bulkInsertSeed t seed).rows →
    r ∈ t.rows ∨ ∃ s ∈ seed, r.slug = s.slug ∧ r.fields = s.fields := by
  intro seed
  induction seed with
  | nil => intro t r h; exact Or.inl h
  | cons s ss ih =>
      intro t r h
      rcases ih (insertSeedRow t s) r h with h1 | ⟨s2, hs2, he⟩
      · unfold insertSeedRow at h1
        rcases List.mem_append.mp h1 with h2 | h2
        · exact Or.inl h2
        · right
          refine ⟨s, List.mem_cons_self s ss, ?_⟩
          have hr : r = { id := t.nextId, name := s.name, slug := s.slug, fields := s.fields } := by
            simpa using h2
          rw [hr]
          exact ⟨rfl, rfl⟩
      · exact Or.inr ⟨s2, List.mem_cons_of_mem s hs2, he⟩

/-- The bulk INSERT adds exactly one row per seed entry. -/
theorem bulk_len : ∀ (seed : List SeedEntry) (t : PATable),
    (bulkInsertSeed t seed).rows.length = t.rows.length + seed.length := by
  intro seed
  induction seed with
  | nil => intro t; simp [bulkInsertSeed]
  | cons s ss ih =>
      intro t
      have h2 : (insertSeedRow t s).rows.length = t.rows.length + 1 := by
        simp [insertSeedRow]
      calc (bulkInsertSeed t (s :: ss)).rows.length
          = (bulkInsertSeed (insertSeedRow t s) ss).rows.length := rfl
        _ = (insertSeedRow t s).rows.length + ss.length := ih (insertSeedRow t s)
        _ = t.rows.length + 1 + ss.length := by rw [h2]
        _ = t.rows.length + (s :: ss).length := by
              simp only [List.length_cons]
              omega

/-- Distinct seed slugs determine their entries. -/
theorem slug_inj {seed : List SeedEntry} (h : (seed.map SeedEntry.slug).Nodup)
    {s1 s2 : SeedEntry} (h1 : s1 ∈ seed) (h2 : s2 ∈ seed) (he : s1.slug = s2.slug) :
    s1 = s2 :=
  List.inj_on_of_nodup_map h h1 h2 he

/-- On a non-empty table the reconciler takes the UPDATE branch: a pure
per-row map, preserving count, order, identity and the counter. -/
theorem reconcile_nonempty (t : PATable) (seed : List SeedEntry) (h : t.rows ≠ []) :
    reconcileSeed t seed = { rows := t.rows.map (rowApply seed), nextId := t.nextId } := by
  unfold reconcileSeed
  rw [if_neg (by simpa using h)]
  exact updFold_eq seed t

/-- Idempotence of seed reconciliation, for a seed catalog with pairwise
distinct natural keys. -/
theorem reconcile_idem (seed : List SeedEntry) (t : PATable)
    (h : (seed.map SeedEntry.slug).Nodup) :
    reconcileSeed (reconcileSeed t seed) seed = reconcileSeed t seed := by
  by_cases he : t.rows = []
  · have h1 : reconcileSeed t seed = bulkInsertSeed t seed := by
      unfold reconcileSeed
      rw [if_pos (by simp [he])]
    by_cases hsd : seed = []
    · subst hsd
      rw [h1]
      exact h1
    · have hlen : (bulkInsertSeed t seed).rows.length = seed.length := by
        rw [bulk_len, he]
        simp
      have hne : (bulkInsertSeed t seed).rows ≠ [] := by
        intro hnil
        rw [hnil] at hlen
        exact hsd (List.length_eq_zero.mp hlen.symm)
      rw [h1, reconcile_nonempty _ seed hne]
      have hmap : (bulkInsertSeed t seed).rows.map (rowApply seed) = (bulkInsertSeed t seed).rows := by
        apply mapIdOfMem
        intro r hr
        apply rowApply_fix
        intro s2 hs2 hslug2
        rcases bulk_rows_mem seed t r hr with hin | ⟨s3, hs3, hsl3, hf3⟩
        · rw [he] at hin
          cases hin
        · have hs23 : s2 = s3 := slug_inj h hs2 hs3 (by rw [hslug2, hsl3])
          rw [hs23, hf3]
      rw [hmap]
  · have h1 := reconcile_nonempty t seed he
    have hne2 : ({ rows := t.rows.map (rowApply seed), nextId := t.nextId } : PATable).rows ≠ [] := by
      simp [he]
    rw [h1, reconcile_nonempty _ seed hne2]
    show ({ rows := (t.rows.map (rowApply seed)).map (rowApply seed), nextId := t.nextId } : PATable) = _
    rw [List.map_map,
        mapCongrOn t.rows (rowApply seed ∘ rowApply seed) (rowApply seed)
          (fun r _ => rowApply_idem seed r)]

/-! ## Claim C1: seed reconciliation of a table keyed A and B against a
seed set keyed A, B and C -/

/-- C1 counterexample: with rows keyed a and b and seed entries keyed a, b
and c, the reconciler leaves exactly 2 rows — not 3 — and no row keyed c is
ever inserted: the UPDATE branch matches existing slugs only and never
inserts a row for a seed key absent from the table. -/
theorem c1_counterexample :
    (reconcileSeed tabAB seedABC).rows.length = 2 ∧
    ¬ (reconcileSeed tabAB seedABC).rows.length = 3 ∧
    (∀ r ∈ (reconcileSeed tabAB seedABC).rows, ¬ r.slug = "c") := by
  decide

/-- C1 (amended): starting from a table with rows keyed A and B and a seed
set keyed A, B and C, one run of the reconciler leaves exactly 2 rows: the
rows keyed A and B are updated in place with the seed mutable fields (row
identity and name preserved, order preserved, counter untouched), no row is
deleted, and the seed entry keyed C is NOT inserted — no row with its key
exists afterwards. -/
theorem c1_amended (a b : PARow) (sa sb sc : SeedEntry) (n : Nat)
    (ha : sa.slug = a.slug) (hb : sb.slug = b.slug) (hab : ¬ a.slug = b.slug)
    (hca : ¬ sc.slug = a.slug) (hcb : ¬ sc.slug = b.slug) :
    reconcileSeed { rows := [a, b], nextId := n } [sa, sb, sc] =
      { rows := [{ a with fields := sa.fields }, { b with fields := sb.fields }], nextId := n } ∧
    (reconcileSeed { rows := [a, b], nextId := n } [sa, sb, sc]).rows.length = 2 ∧
    (reconcileSeed { rows := [a, b], nextId := n } [sa, sb, sc]).rows.map PARow.id = [a.id, b.id] ∧
    (∀ r ∈ (reconcileSeed { rows := [a, b], nextId := n } [sa, sb, sc]).rows, ¬ r.slug = sc.slug) := by
  have hA : rowApply [sa, sb, sc] a = { a with fields := sa.fields } := by
    show rowUpd sc (rowUpd sb (rowUpd sa a)) = _
    have e1 : rowUpd sa a = { a with fields := sa.fields } := by
      unfold rowUpd; rw [if_pos ha.symm]
    have e2 : rowUpd sb ({ a with fields := sa.fields } : PARow) = { a with fields := sa.fields } := by
      unfold rowUpd
      rw [if_neg (show ¬ ({ a with fields := sa.fields } : PARow).slug = sb.slug from
        fun hcon => hab (hb ▸ hcon))]
    have e3 : rowUpd sc ({ a with fields := sa.fields } : PARow) = { a with fields := sa.fields } := by
      unfold rowUpd
      rw [if_neg (show ¬ ({ a with fields := sa.fields } : PARow).slug = sc.slug from
        fun hcon => hca (hcon.symm))]
    rw [e1, e2, e3]
  have hB : rowApply [sa, sb, sc] b = { b with fields := sb.fields } := by
    show rowUpd sc (rowUpd sb (rowUpd sa b)) = _
    have e1 : rowUpd sa b = b := by
      unfold rowUpd
      rw [if_neg (show ¬ b.slug = sa.slug from fun hcon => hab (ha ▸ hcon).symm)]
    have e2 : rowUpd sb b = { b with fields := sb.fields } := by
      unfold rowUpd; rw [if_pos hb.symm]
    have e3 : rowUpd sc ({ b with fields := sb.fields } : PARow) = { b with fields := sb.fields } := by
      unfold rowUpd
      rw [if_neg (show ¬ ({ b with fields := sb.fields } : PARow).slug = sc.slug from
        fun hcon => hcb (hcon.symm))]
    rw [e1, e2, e3]
  have hmain : reconcileSeed { rows := [a, b], nextId := n } [sa, sb, sc] =
      { rows := [{ a with fields := sa.fields }, { b with fields := sb.fields }], nextId := n } := by
    rw [reconcile_nonempty _ _ (by simp)]
    show ({ rows := [rowApply [sa, sb, sc] a, rowApply [sa, sb, sc] b], nextId := n } : PATable) = _
    rw [hA, hB]
  refine ⟨hmain, by rw [hmain]; rfl, by rw [hmain]; rfl, ?_⟩
  rw [hmain]
  intro r hr
  rcases List.mem_cons.mp hr with rfl | hr2
  · exact fun hcon => hca (hcon.symm)
  · rcases List.mem_cons.mp hr2 with rfl | hr3
    · exact fun hcon => hcb (hcon.symm)
    · cases hr3

/-- Witness instantiating the amended C1 statement at a concrete table and
seed set. -/
theorem c1_amended_witness :
    reconcileSeed { rows := [⟨1, "A", "a", mkFields ("old-a")⟩, ⟨2, "B", "b", mkFields ("old-b")⟩], nextId := 3 }
        [⟨"A", "a", mkFields ("new-a")⟩, ⟨"B", "b", mkFields ("new-b")⟩, ⟨"C", "c", mkFields ("new-c")⟩] =
      { rows := [⟨1, "A", "a", mkFields ("new-a")⟩, ⟨2, "B", "b", mkFields ("new-b")⟩], nextId := 3 } ∧
    (reconcileSeed { rows := [⟨1, "A", "a", mkFields ("old-a")⟩, ⟨2, "B", "b", mkFields ("old-b")⟩], nextId := 3 }
        [⟨"A", "a", mkFields ("new-a")⟩, ⟨"B", "b", mkFields ("new-b")⟩, ⟨"C", "c", mkFields ("new-c")⟩]).rows.length = 2 ∧
    (reconcileSeed { rows := [⟨1, "A", "a", mkFields ("old-a")⟩, ⟨2, "B", "b", mkFields ("old-b")⟩], nextId := 3 }
        [⟨"A", "a", mkFields ("new-a")⟩, ⟨"B", "b", mkFields ("new-b")⟩, ⟨"C", "c", mkFields ("new-c")⟩]).rows.map PARow.id = [1, 2] ∧
    (∀ r ∈ (reconcileSeed { rows := [⟨1, "A", "a", mkFields ("old-a")⟩, ⟨2, "B", "b", mkFields ("old-b")⟩], nextId := 3 }
        [⟨"A", "a", mkFields ("new-a")⟩, ⟨"B", "b", mkFields ("new-b")⟩, ⟨"C", "c", mkFields ("new-c")⟩]).rows, ¬ r.slug = "c") :=
  c1_amended ⟨1, "A", "a", mkFields ("old-a")⟩ ⟨2, "B", "b", mkFields ("old-b")⟩
    ⟨"A", "a", mkFields ("new-a")⟩ ⟨"B", "b", mkFields ("new-b")⟩ ⟨"C", "c", mkFields ("new-c")⟩ 3
    rfl rfl (by decide) (by decide) (by decide)

/-! ## Table catalog lemmas -/

/-- A column addition never renames a catalog entry. -/
theorem colUpd_fst (t c : String) (e : String × List String) : (colUpd t c e).1 = e.1 := by
  unfold colUpd; split <;> rfl

/-- ADD COLUMN IF NOT EXISTS preserves the table-name sequence. -/
theorem addCol_fst (T : TablesState) (t c : String) :
    (addColumnIfNotExists T t c).map Prod.fst = T.map Prod.fst := by
  unfold addColumnIfNotExists
  rw [List.map_map]
  exact mapCongrOn T _ _ (fun e _ => colUpd_fst t c e)

/-- CREATE TABLE IF NOT EXISTS preserves presence of any table. -/
theorem hasTable_create_pres (T : TablesState) (n m : String) (cols : List String)
    (h : hasTable T n) : hasTable (createTableIfNotExists T m cols) n := by
  unfold createTableIfNotExists
  by_cases hm : m ∈ T.map Prod.fst
  · rw [if_pos hm]; exact h
  · rw [if_neg hm]
    unfold hasTable at *
    rw [List.map_append]
    exact List.mem_append_left _ h

/-- ADD COLUMN IF NOT EXISTS preserves presence of any table. -/
theorem hasTable_addCol_pres (T : TablesState) (n t c : String)
    (h : hasTable T n) : hasTable (addColumnIfNotExists T t c) n := by
  unfold hasTable
  rw [addCol_fst]
  exact h

/-- A whole multi-column ALTER preserves presence of any table. -/
theorem hasTable_addCols_pres (cols : List String) : ∀ (T : TablesState) (n t : String),
    hasTable T n → hasTable (cols.foldl (fun T c => addColumnIfNotExists T t c) T) n := by
  induction cols with
  | nil => intro T n t h; exact h
  | cons c cs ih => intro T n t h; exact ih _ n t (hasTable_addCol_pres T n t c h)

/-- Any schema step preserves presence of any table. -/
theorem hasTable_apply (T : TablesState) (n : String) (op : SchemaStep)
    (h : hasTable T n) : hasTable (tableApply T op) n := by
  cases op with
  | createTable m cols fks => exact hasTable_create_pres T n m cols h
  | addColumns t cols => exact hasTable_addCols_pres cols T n t h
  | seedReconcile => exact h

/-- CREATE TABLE IF NOT EXISTS establishes presence of its own table. -/
theorem hasTable_create_self (T : TablesState) (n : String) (cols : List String) :
    hasTable (createTableIfNotExists T n cols) n := by
  unfold createTableIfNotExists
  by_cases h : n ∈ T.map Prod.fst
  · rw [if_pos h]; exact h
  · rw [if_neg h]
    unfold hasTable
    rw [List.map_append]
    exact List.mem_append_right _ (by simp)

/-- Presence of a table survives any run of schema steps. -/
theorem hasTable_run_pres (ops : List SchemaStep) : ∀ (T : TablesState) (n : String),
    hasTable T n → hasTable (runTables T ops) n := by
  induction ops with
  | nil => intro T n h; exact h
  | cons op rest ih => intro T n h; exact ih (tableApply T op) n (hasTable_apply T n op h)

/-- A run containing a CREATE of a table ends with that table present. -/
theorem hasTable_run_of_mem (ops : List SchemaStep) (T : TablesState) (n : String)
    (cols fks : List String) (h : SchemaStep.createTable n cols fks ∈ ops) :
    hasTable (runTables T ops) n := by
  obtain ⟨l1, l2, rfl⟩ := List.append_of_mem h
  show hasTable (List.foldl tableApply T (l1 ++ SchemaStep.createTable n cols fks :: l2)) n
  rw [List.foldl_append]
  exact hasTable_run_pres l2 _ n (hasTable_create_self (runTables T l1) n cols)

/-- Boolean form: some step of the list creates the table. -/
theorem hasTable_run_of_any (ops : List SchemaStep) (T : TablesState) (t : String)
    (h : ops.any (fun op => isCreateOf op t) = true) : hasTable (runTables T ops) t := by
  rcases List.any_eq_true.mp h with ⟨op, hmem, hop⟩
  cases op with
  | createTable n cols fks =>
      have hn : n = t := by simpa [isCreateOf] using hop
      subst hn
      exact hasTable_run_of_mem ops T n cols fks hmem
  | addColumns t2 cols2 => simp [isCreateOf] at hop
  | seedReconcile => simp [isCreateOf] at hop

/-- Column additions only ever extend column lists, so an established
column survives any later ADD COLUMN. -/
theorem hasCol_addCol_pres (T : TablesState) (t c t2 c2 : String)
    (h : hasCol T t c) : hasCol (addColumnIfNotExists T t2 c2) t c := by
  intro e he hfst
  rcases List.mem_map.mp he with ⟨e0, he0, rfl⟩
  have h0 : c ∈ e0.2 := h e0 he0 (by rw [← colUpd_fst t2 c2 e0]; exact hfst)
  show c ∈ (colUpd t2 c2 e0).2
  unfold colUpd
  by_cases hb : e0.1 = t2
  · rw [if_pos hb]
    show c ∈ (if c2 ∈ e0.2 then e0.2 else e0.2 ++ [c2])
    by_cases hc : c2 ∈ e0.2
    · rw [if_pos hc]; exact h0
    · rw [if_neg hc]; exact List.mem_append_left _ h0
  · rw [if_neg hb]; exact h0

/-- A CREATE of some table preserves a column fact about a table that is
already present: the create is then either a no-op or adds an unrelated
entry. -/
theorem ready_create_pres (T : TablesState) (t c m : String) (cols : List String)
    (h1 : hasTable T t) (h2 : hasCol T t c) :
    hasTable (createTableIfNotExists T m cols) t ∧ hasCol (createTableIfNotExists T m cols) t c := by
  refine ⟨hasTable_create_pres T t m cols h1, ?_⟩
  unfold createTableIfNotExists
  by_cases hm : m ∈ T.map Prod.fst
  · rw [if_pos hm]; exact h2
  · rw [if_neg hm]
    intro e he hfst
    rcases List.mem_append.mp he with h3 | h3
    · exact h2 e h3 hfst
    · have he2 : e = (m, cols) := by simpa using h3
      rw [he2] at hfst
      have hmt : m = t := hfst
      exact absurd (hmt.symm ▸ h1) hm

/-- A multi-column ALTER preserves presence and column facts. -/
theorem ready_addCols_pres (cols2 : List String) : ∀ (T : TablesState) (t c t2 : String),
    hasTable T t → hasCol T t c →
    hasTable (cols2.foldl (fun T c2 => addColumnIfNotExists T t2 c2) T) t ∧
    hasCol (cols2.foldl (fun T c2 => addColumnIfNotExists T t2 c2) T) t c := by
  induction cols2 with
  | nil => intro T t c t2 h1 h2; exact ⟨h1, h2⟩
  | cons c2 cs ih =>
      intro T t c t2 h1 h2
      exact ih _ t c t2 (hasTable_addCol_pres T t t2 c2 h1) (hasCol_addCol_pres T t c t2 c2 h2)

/-- Any single schema step preserves presence and column facts. -/
theorem ready_apply (T : TablesState) (t c : String) (op : SchemaStep)
    (h1 : hasTable T t) (h2 : hasCol T t c) :
    hasTable (tableApply T op) t ∧ hasCol (tableApply T op) t c := by
  cases op with
  | createTable m cols fks => exact ready_create_pres T t c m cols h1 h2
  | addColumns t2 cols2 => exact ready_addCols_pres cols2 T t c t2 h1 h2
  | seedReconcile => exact ⟨h1, h2⟩

/-- Any run of schema steps preserves presence and column facts. -/
theorem ready_run_pres (ops : List SchemaStep) : ∀ (T : TablesState) (t c : String),
    hasTable T t → hasCol T t c →
    hasTable (runTables T ops) t ∧ hasCol (runTables T ops) t c := by
  induction ops with
  | nil => intro T t c h1 h2; exact ⟨h1, h2⟩
  | cons op rest ih =>
      intro T t c h1 h2
      have h3 := ready_apply T t c op h1 h2
      exact ih (tableApply T op) t c h3.1 h3.2

/-- ADD COLUMN IF NOT EXISTS establishes its own column on every entry of
its table. -/
theorem hasCol_addCol_self (T : TablesState) (t c : String) :
    hasCol (addColumnIfNotExists T t c) t c := by
  intro e he hfst
  rcases List.mem_map.mp he with ⟨e0, he0, rfl⟩
  show c ∈ (colUpd t c e0).2
  unfold colUpd
  have hb : e0.1 = t := by rw [← colUpd_fst t c e0]; exact hfst
  rw [if_pos hb]
  show c ∈ (if c ∈ e0.2 then e0.2 else e0.2 ++ [c])
  by_cases hc : c ∈ e0.2
  · rw [if_pos hc]; exact hc
  · rw [if_neg hc]; exact List.mem_append_right _ (by simp)

/-- A multi-column ALTER establishes presence plus each of its columns,
provided its table is present. -/
theorem ready_addCols_self (cols : List String) : ∀ (T : TablesState) (t c : String),
    hasTable T t → c ∈ cols →
    hasTable (cols.foldl (fun T c2 => addColumnIfNotExists T t c2) T) t ∧
    hasCol (cols.foldl (fun T c2 => addColumnIfNotExists T t c2) T) t c := by
  induction cols with
  | nil => intro T t c h1 hc; cases hc
  | cons c2 cs ih =>
      intro T t c h1 hc
      rcases List.mem_cons.mp hc with rfl | hc2
      · exact ready_addCols_pres cs (addColumnIfNotExists T t c) t c t
          (hasTable_addCol_pres T t t c h1) (hasCol_addCol_self T t c)
      · exact ih (addColumnIfNotExists T t c2) t c (hasTable_addCol_pres T t t c2 h1) hc2

/-- Column presence at the end of a whole pass, located by the position of
the ALTER statement: its table was created in the prefix, the ALTER itself
establishes the column, and every later step preserves it. -/
theorem hasCol_run_at (ops : List SchemaStep) (T : TablesState) (k : Nat)
    {t c : String} {cols : List String} {l2 : List SchemaStep}
    (hd : ops.drop k = SchemaStep.addColumns t cols :: l2)
    (hc : c ∈ cols)
    (hcr : (ops.take k).any (fun op => isCreateOf op t) = true) :
    hasCol (runTables T ops) t c := by
  have hT1 : hasTable (runTables T (ops.take k)) t := hasTable_run_of_any _ T t hcr
  have hsplit : runTables T ops = runTables (runTables T (ops.take k)) (ops.drop k) := by
    rw [runTables, runTables, runTables, ← List.foldl_append, List.take_append_drop]
  rw [hsplit, hd]
  have h2 := ready_addCols_self cols (runTables T (ops.take k)) t c hT1 hc
  exact (ready_run_pres l2 _ t c h2.1 h2.2).2

/-- CREATE TABLE IF NOT EXISTS is a no-op on a present table. -/
theorem create_fix (T : TablesState) (n : String) (cols : List String)
    (h : hasTable T n) : createTableIfNotExists T n cols = T := by
  unfold createTableIfNotExists
  exact if_pos h

/-- ADD COLUMN IF NOT EXISTS is a no-op on a present column. -/
theorem addCol_fix (T : TablesState) (t c : String) (h : hasCol T t c) :
    addColumnIfNotExists T t c = T := by
  unfold addColumnIfNotExists
  apply mapIdOfMem
  intro e he
  unfold colUpd
  by_cases hb : e.1 = t
  · rw [if_pos hb, if_pos (h e he hb)]
  · rw [if_neg hb]

/-- A whole multi-column ALTER is a no-op when all its columns are
present. -/
theorem addCols_fix (cols : List String) : ∀ (T : TablesState) (t : String),
    (∀ c ∈ cols, hasCol T t c) →
    cols.foldl (fun T c => addColumnIfNotExists T t c) T = T := by
  induction cols with
  | nil => intro T t _; rfl
  | cons c cs ih =>
      intro T t h
      have h1 : addColumnIfNotExists T t c = T := addCol_fix T t c (h c (by simp))
      have h2 : (c :: cs).foldl (fun T c => addColumnIfNotExists T t c) T
          = cs.foldl (fun T c => addColumnIfNotExists T t c) (addColumnIfNotExists T t c) := rfl
      rw [h2, h1]
      exact ih T t (fun c2 hc2 => h c2 (by simp [hc2]))

/-- A state fixed by every step of a list is fixed by the whole run. -/
theorem runTables_fix (ops : List SchemaStep) : ∀ (T : TablesState),
    (∀ op ∈ ops, tableApply T op = T) → runTables T ops = T := by
  induction ops with
  | nil => intro T _; rfl
  | cons op rest ih =>
      intro T h
      have h1 : tableApply T op = T := h op (by simp)
      have h2 : runTables T (op :: rest) = runTables (tableApply T op) rest := rfl
      rw [h2, h1]
      exact ih T (fun op2 hop2 => h op2 (by simp [hop2]))

/-- Every step of the concrete schema sequence fixes the catalog produced
by one full pass: each CREATE finds its table present, and each ALTER finds
every one of its columns present (its table was created earlier in the
pass, the ALTER itself added any missing column, and no later step removes
anything). -/
theorem schemaSteps_fix (T : TablesState) :
    ∀ op ∈ schemaSteps, tableApply (runTables T schemaSteps) op = runTables T schemaSteps := by
  intro op hop
  cases op with
  | createTable n cols fks =>
      exact create_fix _ n cols (hasTable_run_of_mem schemaSteps T n cols fks hop)
  | seedReconcile => rfl
  | addColumns t cols =>
      apply addCols_fix
      intro c hc
      simp only [schemaSteps, List.mem_cons, List.not_mem_nil, or_false, false_or,
        SchemaStep.addColumns.injEq, reduceCtorEq] at hop
      rcases hop with hq1 | hq2 | hp1 | hp2 | hp3 | hp4 | hp5 | hp6 | hp7 | has1 | hmy1
      · obtain ⟨rfl, rfl⟩ := hq1
        exact hasCol_run_at schemaSteps T 3 rfl hc (by decide)
      · obtain ⟨rfl, rfl⟩ := hq2
        exact hasCol_run_at schemaSteps T 4 rfl hc (by decide)
      · obtain ⟨rfl, rfl⟩ := hp1
        exact hasCol_run_at schemaSteps T 6 rfl hc (by decide)
      · obtain ⟨rfl, rfl⟩ := hp2
        exact hasCol_run_at schemaSteps T 7 rfl hc (by decide)
      · obtain ⟨rfl, rfl⟩ := hp3
        exact hasCol_run_at schemaSteps T 8 rfl hc (by decide)
      · obtain ⟨rfl, rfl⟩ := hp4
        exact hasCol_run_at schemaSteps T 9 rfl hc (by decide)
      · obtain ⟨rfl, rfl⟩ := hp5
        exact hasCol_run_at schemaSteps T 10 rfl hc (by decide)
      · obtain ⟨rfl, rfl⟩ := hp6
        exact hasCol_run_at schemaSteps T 11 rfl hc (by decide)
      · obtain ⟨rfl, rfl⟩ := hp7
        exact hasCol_run_at schemaSteps T 12 rfl hc (by decide)
      · obtain ⟨rfl, rfl⟩ := has1
        exact hasCol_run_at schemaSteps T 17 rfl hc (by decide)
      · obtain ⟨rfl, rfl⟩ := hmy1
        exact hasCol_run_at schemaSteps T 26 rfl hc (by decide)

/-- Componentwise equality of stores. -/
theorem dbstore_ext (x y : DbStore) (h1 : x.tables = y.tables) (h2 : x.pa = y.pa) : x = y := by
  cases x
  cases y
  cases h1
  cases h2
  rfl

/-- A schema step acts on the catalog component through tableApply. -/
theorem applyStep_tables (seed : List SeedEntry) (st : DbStore) (op : SchemaStep) :
    (applyStep seed st op).tables = tableApply st.tables op := by
  cases op <;> rfl

/-- A schema step acts on the row component through paApply. -/
theorem applyStep_pa (seed : List SeedEntry) (st : DbStore) (op : SchemaStep) :
    (applyStep seed st op).pa = paApply seed st.pa op := by
  cases op <;> rfl

/-- Catalog projection of a whole run of steps on the store. -/
theorem init_tables (seed : List SeedEntry) : ∀ (ops : List SchemaStep) (st : DbStore),
    (ops.foldl (applyStep seed) st).tables = runTables st.tables ops := by
  intro ops
  induction ops with
  | nil => intro st; rfl
  | cons op rest ih =>
      intro st
      have h1 : (op :: rest).foldl (applyStep seed) st
          = rest.foldl (applyStep seed) (applyStep seed st op) := rfl
      rw [h1, ih, applyStep_tables]
      rfl

/-- Row projection of a whole run of steps on the store. -/
theorem init_pa (seed : List SeedEntry) : ∀ (ops : List SchemaStep) (st : DbStore),
    (ops.foldl (applyStep seed) st).pa = ops.foldl (paApply seed) st.pa := by
  intro ops
  induction ops with
  | nil => intro st; rfl
  | cons op rest ih =>
      intro st
      have h1 : (op :: rest).foldl (applyStep seed) st
          = rest.foldl (applyStep seed) (applyStep seed st op) := rfl
      rw [h1, ih, applyStep_pa]
      rfl

/-- The catalog after one full reconciliation pass. -/
theorem init_schema_tables (seed : List SeedEntry) (st : DbStore) :
    (init_schema seed st).tables = runTables st.tables schemaSteps :=
  init_tables seed schemaSteps st

/-- The reference rows after one full reconciliation pass: exactly one seed
block runs. -/
theorem init_schema_pa (seed : List SeedEntry) (st : DbStore) :
    (init_schema seed st).pa = reconcileSeed st.pa seed :=
  init_pa seed schemaSteps st

/-! ## Claim C5: idempotence of the whole reconciliation routine -/

/-- C5: the schema reconciler is idempotent.  For every starting store —
empty or not — a second run of _initialize_schema leaves the tables, the
columns and the seed rows exactly as the first run left them, provided the
seed catalog has pairwise distinct natural keys (slugs). -/
theorem c5_reconciler_idempotent (seed : List SeedEntry) (st : DbStore)
    (h : (seed.map SeedEntry.slug).Nodup) :
    init_schema seed (init_schema seed st) = init_schema seed st := by
  apply dbstore_ext
  · simp only [init_schema_tables]
    exact runTables_fix schemaSteps _ (schemaSteps_fix st.tables)
  · simp only [init_schema_pa]
    exact reconcile_idem seed st.pa h

/-- Witness running the reconciler twice from the empty store against a
concrete two-entry seed catalog. -/
theorem c5_witness :
    init_schema [⟨"A", "a", mkFields ("sa")⟩, ⟨"B", "b", mkFields ("sb")⟩]
        (init_schema [⟨"A", "a", mkFields ("sa")⟩, ⟨"B", "b", mkFields ("sb")⟩] emptyStore) =
      init_schema [⟨"A", "a", mkFields ("sa")⟩, ⟨"B", "b", mkFields ("sb")⟩] emptyStore :=
  c5_reconciler_idempotent [⟨"A", "a", mkFields ("sa")⟩, ⟨"B", "b", mkFields ("sb")⟩]
    emptyStore (by decide)

/-! ## Claim C8: foreign-key dependency order of the CREATE sequence -/

/-- C8: in the fixed statement sequence of the reconciler, every table that
declares a foreign key appears strictly after the table it references: each
referenced table is created by some earlier statement of the sequence. -/
theorem c8_fk_creation_order :
    ∀ i < schemaSteps.length, ∀ fk ∈ fksOf (schemaSteps.getD i SchemaStep.seedReconcile),
      (schemaSteps.take i).any (fun op => isCreateOf op fk) = true := by
  decide

/-- Witness: the personality_sessions create (position 14) references
users, created earlier in the sequence. -/
theorem c8_witness :
    (schemaSteps.take 14).any (fun op => isCreateOf op "users") = true :=
  c8_fk_creation_order 14 (by decide) "users" (by decide)

/-! ## Claim C3: all-or-nothing schema reconciliation -/

/-- C3: create_tables is all-or-nothing.  Whenever any table-creation,
column-evolution or seed statement of the transactional run raises, the
whole transaction rolls back — the persisted store equals the store before
the call — and the call returns false instead of raising; when no statement
raises, the run commits and the call returns true.  (The logging of the
cause is I/O outside the model.) -/
theorem c3_rollback_all_or_nothing (failAt : Nat → Bool) (seed : List SeedEntry) (st : DbStore) :
    (∀ e, runStepsE failAt seed 0 schemaSteps st = .error e →
      create_tables failAt seed st = (st, false)) ∧
    (∀ st2, runStepsE failAt seed 0 schemaSteps st = .ok st2 →
      create_tables failAt seed st = (st2, true)) := by
  constructor
  · intro e he
    unfold create_tables
    rw [he]
  · intro st2 hok
    unfold create_tables
    rw [hok]

/-- Witness: a run whose sixth statement raises (after five creations
already executed inside the transaction) leaves the empty store unchanged
and reports false. -/
theorem c3_witness :
    create_tables (fun i => i == 5) [] emptyStore = (emptyStore, false) :=
  (c3_rollback_all_or_nothing (fun i => i == 5) [] emptyStore).1 ("schema step failed") (by decide)

/-! ## Claim C2: bound parameters versus spliced identifiers -/

/-- C2 counterexample: two submissions that both pass authorization and
validation but whose answers dictionaries use different keys hand
DIFFERENT SQL statement texts to the store — the dictionary keys are
concatenated into the dynamic UPDATE statement, so the statement string is
not identical across caller inputs. -/
theorem c2_counterexample :
    answers_invalid ansQ = false ∧ answers_invalid ansP = false ∧
    (submit_answers 1 ansQ emptySS).issued.map Prod.fst ≠
      (submit_answers 1 ansP emptySS).issued.map Prod.fst := by
  decide

/-- C2 (amended): caller-supplied VALUES are always bound parameters: every
query-helper call hands the store exactly the caller query, independent of
the bound parameter list, and on the self-assessment path two authorized,
valid submissions whose answers dictionaries have the same key sequence
issue identical statement texts, values and row ids riding only in the
parameter lists.  The statement text does however depend on the answers
KEYS, which are spliced into the UPDATE — the part of the original claim
that fails. -/
theorem c2_amended (q : String) (p1 p2 : Option (List Int))
    (uid1 uid2 : Int) (ans1 ans2 : List (String × Int)) (db1 db2 : SSTable)
    (h1 : uid1 ≠ 0) (h2 : uid2 ≠ 0)
    (hv1 : answers_invalid ans1 = false) (hv2 : answers_invalid ans2 = false)
    (hk : ans1.map Prod.fst = ans2.map Prod.fst) :
    (helperIssued q p1).1 = (helperIssued q p2).1 ∧
    (submit_answers uid1 ans1 db1).issued.map Prod.fst =
      (submit_answers uid2 ans2 db2).issued.map Prod.fst := by
  refine ⟨rfl, ?_⟩
  have hupd : updateStatement ans1 = updateStatement ans2 := by
    unfold updateStatement setClause
    have e : ∀ (l : List (String × Int)), l.map (fun kv => kv.1 ++ " = %s")
        = (l.map Prod.fst).map (fun k => k ++ " = %s") := by
      intro l
      rw [List.map_map]
      exact mapCongrOn l _ _ (fun kv _ => rfl)
    rw [e ans1, e ans2, hk]
  unfold submit_answers
  rw [if_neg h1, if_neg h2, if_neg (by simp [hv1]), if_neg (by simp [hv2])]
  simp [hupd]

/-- Witness: two valid submissions with equal keys but different values and
different users issue the same statement texts. -/
theorem c2_amended_witness :
    (helperIssued ("SELECT 1") none).1 = (helperIssued ("SELECT 1") (some [7])).1 ∧
    (submit_answers 1 ansQ emptySS).issued.map Prod.fst =
      (submit_answers 2 ((List.range 22).map (fun i => ("q" ++ toString (i + 1), (5 : Int))))
        emptySS).issued.map Prod.fst :=
  c2_amended ("SELECT 1") none (some [7]) 1 2 ansQ
    ((List.range 22).map (fun i => ("q" ++ toString (i + 1), (5 : Int)))) emptySS emptySS
    (by decide) (by decide) (by decide) (by decide) (by decide)

/-! ## Claim C6 / C9: self-assessment submission -/

/-- Bridge between the Boolean validation of the source and its arithmetic
reading: a submission is accepted exactly when it has 22 entries, each
valued between 1 and 5. -/
theorem answers_invalid_false_iff (answers : List (String × Int)) :
    answers_invalid answers = false ↔
      (answers.length = 22 ∧ ∀ kv ∈ answers, 1 ≤ kv.2 ∧ kv.2 ≤ 5) := by
  unfold answers_invalid
  simp [List.any_eq_false, not_lt]

/-- C6: submission validates before mutating.  For an authorized user, a
submission of exactly 22 answers all in [1, 5] succeeds, returns the
identity of the newly inserted row (the auto-increment value) and grows the
table by one row; any other answers dictionary — wrong entry count or an
out-of-range value — fails with a status-400 validation error and leaves
the table untouched. -/
theorem c6_validate_before_mutate (uid : Int) (answers : List (String × Int))
    (db : SSTable) (huid : uid ≠ 0) :
    ((answers.length = 22 ∧ ∀ kv ∈ answers, 1 ≤ kv.2 ∧ kv.2 ≤ 5) →
      ∃ ok : SubmitOk, (submit_answers uid answers db).result = .ok ok ∧
        ok.assessmentId = db.nextId ∧
        (submit_answers uid answers db).db.rows.length = db.rows.length + 1) ∧
    ((¬ (answers.length = 22 ∧ ∀ kv ∈ answers, 1 ≤ kv.2 ∧ kv.2 ≤ 5)) →
      ∃ e : ServiceError, (submit_answers uid answers db).result = .error e ∧
        e.status_code = 400 ∧ (submit_answers uid answers db).db = db) := by
  constructor
  · intro hval
    have hinv : answers_invalid answers = false := (answers_invalid_false_iff answers).mpr hval
    refine ⟨⟨"پاسخ‌های شما با موفقیت ثبت شد.", db.nextId⟩, ?_, rfl, ?_⟩
    · unfold submit_answers
      rw [if_neg huid, if_neg (by simp [hinv])]
    · unfold submit_answers
      rw [if_neg huid, if_neg (by simp [hinv])]
      simp
  · intro hval
    have hinv : answers_invalid answers = true := by
      cases hb : answers_invalid answers
      · exact absurd ((answers_invalid_false_iff answers).mp hb) hval
      · rfl
    refine ⟨⟨"داده‌های ارسالی نامعتبر است", 400⟩, ?_, rfl, ?_⟩
    · unfold submit_answers
      rw [if_neg huid, if_pos hinv]
    · unfold submit_answers
      rw [if_neg huid, if_pos hinv]

/-- Witness: user 1 submitting 22 in-range answers gets row id 1 on the
empty table; 21 answers, or a value of 6, are rejected with 400 and create
no row. -/
theorem c6_witness :
    (∃ ok : SubmitOk, (submit_answers 1 ansQ emptySS).result = .ok ok ∧
      ok.assessmentId = emptySS.nextId ∧
      (submit_answers 1 ansQ emptySS).db.rows.length = emptySS.rows.length + 1) ∧
    (∃ e : ServiceError, (submit_answers 1 (ansQ.take 21) emptySS).result = .error e ∧
      e.status_code = 400 ∧ (submit_answers 1 (ansQ.take 21) emptySS).db = emptySS) ∧
    (∃ e : ServiceError,
      (submit_answers 1 ((List.range 22).map (fun i => ("q" ++ toString (i + 1), (6 : Int))))
        emptySS).result = .error e ∧
      e.status_code = 400 ∧
      (submit_answers 1 ((List.range 22).map (fun i => ("q" ++ toString (i + 1), (6 : Int))))
        emptySS).db = emptySS) :=
  ⟨(c6_validate_before_mutate 1 ansQ emptySS (by decide)).1 (by decide),
   (c6_validate_before_mutate 1 (ansQ.take 21) emptySS (by decide)).2 (by decide),
   (c6_validate_before_mutate 1
      ((List.range 22).map (fun i => ("q" ++ toString (i + 1), (6 : Int)))) emptySS
      (by decide)).2 (by decide)⟩

/-- C9: a falsy user id — 0, or a missing session user mapped to 0 by the
endpoint — is rejected with status 401 before validation and before any
database work: whatever the answers dictionary, the result is the 401
error, the table is unchanged and no statement is issued. -/
theorem c9_falsy_user_rejected_first (answers : List (String × Int)) (db : SSTable) :
    submit_answers 0 answers db =
      { db := db, result := .error ⟨"دسترسی غیرمجاز", 401⟩, issued := [] } ∧
    submit_endpoint none answers db =
      { db := db, result := .error ⟨"دسترسی غیرمجاز", 401⟩, issued := [] } := by
  constructor <;> rfl

/-! ## Claim C4: lazy pool creation under concurrency -/

/-- C4 counterexample: with two first callers interleaved at the await
point (both pass the None check before either assigns), BOTH create a
physical pool: after the alternating schedule both tasks have completed and
the creation counter is 2, not 1.  The check-then-act of get_pool is
unguarded. -/
theorem c4_counterexample :
    (runSched getPoolInit [true, false, true, false, true, false]).glob.created = 2 ∧
    ¬ (runSched getPoolInit [true, false, true, false, true, false]).glob.created = 1 ∧
    (runSched getPoolInit [true, false, true, false, true, false]).t1.pc = GetPoolPC.done ∧
    (runSched getPoolInit [true, false, true, false, true, false]).t2.pc = GetPoolPC.done := by
  decide

/-- C4 (amended): memoization holds only without interleaving.  When the
two first calls are serialized — either one running to completion before
the other starts — exactly one physical pool is created and both callers
observe that same pool; the counterexample shows an interleaved schedule
creating two. -/
theorem c4_amended :
    (runSched getPoolInit [true, true, true, false, false, false]).glob.created = 1 ∧
    (runSched getPoolInit [true, true, true, false, false, false]).t1.retVal = some 1 ∧
    (runSched getPoolInit [true, true, true, false, false, false]).t2.retVal = some 1 ∧
    (runSched getPoolInit [false, false, false, true, true, true]).glob.created = 1 ∧
    (runSched getPoolInit [false, false, false, true, true, true]).t1.retVal = some 1 ∧
    (runSched getPoolInit [false, false, false, true, true, true]).t2.retVal = some 1 := by
  decide

/-! ## Claim C7: scoped connection release -/

/-- An event trace moves the available count by releases minus acquires. -/
theorem applyConnEvents_formula : ∀ (evs : List ConnEvent) (p : Int),
    applyConnEvents p evs = p - (countAcquires evs : Int) + (countReleases evs : Int) := by
  intro evs
  induction evs with
  | nil =>
      intro p
      simp [applyConnEvents, countAcquires, countReleases]
  | cons e rest ih =>
      intro p
      cases e
      · have h1 : applyConnEvents p (ConnEvent.acquire :: rest)
            = applyConnEvents (p - 1) rest := rfl
        have h2 : countAcquires (ConnEvent.acquire :: rest) = countAcquires rest + 1 := by
          simp [countAcquires, List.filter_cons, isAcquire]
        have h3 : countReleases (ConnEvent.acquire :: rest) = countReleases rest := by
          simp [countReleases, List.filter_cons, isAcquire]
        rw [h1, ih (p - 1), h2, h3]
        omega
      · have h1 : applyConnEvents p (ConnEvent.release :: rest)
            = applyConnEvents (p + 1) rest := rfl
        have h2 : countAcquires (ConnEvent.release :: rest) = countAcquires rest := by
          simp [countAcquires, List.filter_cons, isAcquire]
        have h3 : countReleases (ConnEvent.release :: rest) = countReleases rest + 1 := by
          simp [countReleases, List.filter_cons, isAcquire]
        rw [h1, ih (p + 1), h2, h3]
        omega

/-- C7: the connection scope never leaks.  Every pass through the context
manager emits exactly one acquire and exactly one release — whether the
liveness ping or the body completes or raises — so one pass restores the
available count, and any interleaving of passes whose acquires and releases
balance (as every finished pass does, M overlapping failures included)
returns the pool to its baseline. -/
theorem c7_scoped_release (pingOk bodyOk : Bool) (p : Int) (evs : List ConnEvent)
    (h : countAcquires evs = countReleases evs) :
    countAcquires (connectionScope pingOk bodyOk).1 = 1 ∧
    countReleases (connectionScope pingOk bodyOk).1 = 1 ∧
    applyConnEvents p (connectionScope pingOk bodyOk).1 = p ∧
    applyConnEvents p evs = p := by
  refine ⟨rfl, rfl, ?_, ?_⟩
  · show p - 1 + 1 = p
    omega
  · rw [applyConnEvents_formula evs p, h]
    omega

/-- Witness: a failing-ping pass emits one acquire and one release, and the
interleaved trace of two overlapping failing passes returns availability 5
to 5. -/
theorem c7_witness :
    countAcquires (connectionScope false false).1 = 1 ∧
    countReleases (connectionScope false false).1 = 1 ∧
    applyConnEvents 5 (connectionScope false false).1 = 5 ∧
    applyConnEvents 5
      [ConnEvent.acquire, ConnEvent.acquire, ConnEvent.release, ConnEvent.release] = 5 :=
  c7_scoped_release false false 5
    [ConnEvent.acquire, ConnEvent.acquire, ConnEvent.release, ConnEvent.release] (by decide)

/-! ## Claim C10: blog listing limit -/

/-- C10: for every caller-supplied limit string, the listing applies a row
limit of min(parsed, 50) as a bound parameter when the string parses to a
positive integer, and no limit at all when the limit is absent, unparsable
or non-positive; the sanitizer is a total function, so a malformed limit
never raises. -/
theorem c10_limit_sanitized (s : String) :
    (∀ n : Int, pyParseInt s = some n → 0 < n →
      sanitize_limit (some s) = some (min n 50) ∧
      list_posts_query (some s) = (blogBaseQuery ++ " LIMIT %s", [min n 50])) ∧
    (pyParseInt s = none →
      sanitize_limit (some s) = none ∧ list_posts_query (some s) = (blogBaseQuery, [])) ∧
    (∀ n : Int, pyParseInt s = some n → n ≤ 0 →
      sanitize_limit (some s) = none ∧ list_posts_query (some s) = (blogBaseQuery, [])) ∧
    (sanitize_limit none = none ∧ list_posts_query none = (blogBaseQuery, [])) := by
  refine ⟨?_, ?_, ?_, rfl, rfl⟩
  · intro n hp hpos
    have hs : sanitize_limit (some s) = some (min n 50) := by
      simp only [sanitize_limit, hp]
      rw [if_neg (by omega)]
    refine ⟨hs, ?_⟩
    simp only [list_posts_query, hs]
    rw [if_neg (ne_of_gt (lt_min hpos (by norm_num)))]
  · intro hp
    have hs : sanitize_limit (some s) = none := by
      simp only [sanitize_limit, hp]
    refine ⟨hs, ?_⟩
    simp only [list_posts_query, hs]
  · intro n hp hnp
    have hs : sanitize_limit (some s) = none := by
      simp only [sanitize_limit, hp]
      rw [if_pos (by omega)]
    refine ⟨hs, ?_⟩
    simp only [list_posts_query, hs]

/-- Witness: limit 7 is applied as LIMIT 7, limit 99 would cap at 50 (via
min), a non-numeric and a negative limit are dropped, and an absent limit
issues the bare query. -/
theorem c10_witness :
    (sanitize_limit (some ("7")) = some (min 7 50) ∧
      list_posts_query (some ("7")) = (blogBaseQuery ++ " LIMIT %s", [min 7 50])) ∧
    (sanitize_limit (some ("abc")) = none ∧
      list_posts_query (some ("abc")) = (blogBaseQuery, [])) ∧
    (sanitize_limit (some ("-3")) = none ∧
      list_posts_query (some ("-3")) = (blogBaseQuery, [])) ∧
    (sanitize_limit none = none ∧ list_posts_query none = (blogBaseQuery, [])) :=
  ⟨(c10_limit_sanitized "7").1 7 (by decide) (by decide),
   (c10_limit_sanitized "abc").2.1 (by decide),
   (c10_limit_sanitized "-3").2.2.1 (-3) (by decide) (by decide),
   (c10_limit_sanitized "x").2.2.2⟩
